import Mathlib

set_option autoImplicit false

/-!
Shallow embedding of `opencontainers/struct.py` (classes `StructAttr` and
`Struct`): Python values, Python `isinstance`, attribute-type descriptors
("a python type, can be provided in list"), and the methods
`StructAttr.set`, `StructAttr.validate_type`, `Struct.newAttr`,
`Struct._clear_values`, `Struct.to_dict`, `Struct.to_json`, `Struct.add`,
`Struct.load`, `Struct.generate_json_lookup`, `Struct.validate`.

Mutating methods are modelled by explicit state passing: a method that may
call `bot.exit` (which raises) or hit a Python `TypeError` returns
`Except PyErr Unit × Struct`, the second component being the state of the
object at the moment the method terminated (normally or by raising).
Python dicts are modelled as association lists in insertion order, which is
what Python guarantees; `content` passed to `load` is a dict, so the
`isinstance(content, dict)` guard is discharged by typing.
-/

namespace OCI

/-- A Python runtime value, as used by struct.py: `None`, bools, ints,
strings, lists, and string-keyed dicts. `PyVal.none` is Python `None`,
which struct.py also uses as the "unset" sentinel for attribute values. -/
inductive PyVal where
  | none : PyVal
  | bool : Bool → PyVal
  | int : Int → PyVal
  | str : String → PyVal
  | list : List PyVal → PyVal
  | dict : List (String × PyVal) → PyVal

/-- Python truthiness (`if value:`): `None`, `False`, `0`, `""`, `[]`, `{}`
are falsy, everything else truthy. -/
def truthy : PyVal → Bool
  | .none => false
  | .bool b => b
  | .int n => n != 0
  | .str s => s != ""
  | .list l => !l.isEmpty
  | .dict m => !m.isEmpty

/-- `value is None` / the unset test used in statements. -/
def isNone : PyVal → Bool
  | .none => true
  | _ => false

/-- The Python type objects struct.py uses as attribute types. -/
inductive PyType where
  | str | int | bool | list | dict
  deriving DecidableEq

/-- Python `isinstance(v, t)` for a single type object `t`.
`bool` is a subclass of `int` in Python, so `isinstance(True, int)` holds. -/
def isinst : PyVal → PyType → Bool
  | .str _, .str => true
  | .int _, .int => true
  | .bool _, .int => true
  | .bool _, .bool => true
  | .list _, .list => true
  | .dict _, .dict => true
  | _, _ => false

/-- An `attType` as accepted by `StructAttr.__init__`: either a plain
Python type, or a list holding at most one element type (`[T]`, or the
empty list `[]`, which `validate_type` treats as "any list contents"). -/
inductive AttType where
  | scalar : PyType → AttType
  | listOf : Option PyType → AttType
  deriving DecidableEq

/-- Whether the descriptor is a plain (non-list) Python type. -/
def isScalar : AttType → Bool
  | .scalar _ => true
  | .listOf _ => false

def PyType.pyName : PyType → String
  | .str => "str"
  | .int => "int"
  | .bool => "bool"
  | .list => "list"
  | .dict => "dict"

def AttType.pyName : AttType → String
  | .scalar t => t.pyName
  | .listOf Option.none => "[]"
  | .listOf (some t) => "[" ++ t.pyName ++ "]"

/-- An error terminating a method: `bot.exit(msg)` (raises / kills the
process), or an uncaught Python `TypeError` (raised by `isinstance` when
its second argument is a list object, and by `dict.get` on an unhashable
key). -/
inductive PyErr where
  | exit (msg : String)
  | typeError

/-- `StructAttr`: name, current value (`PyVal.none` when unset), attribute
type, required flag, json (wire) name, omitempty flag. -/
structure StructAttr where
  name : String
  value : PyVal
  attType : AttType
  required : Bool
  jsonName : String
  omitempty : Bool

/-- `StructAttr.validate_type(value)`: if `attType` is a list, `value` must
be a list, and when the descriptor carries an element type every entry must
be an instance of it; otherwise `isinstance(value, attType)`. -/
def StructAttr.validate_type (a : StructAttr) (value : PyVal) : Bool :=
  match a.attType with
  | .listOf elemTy =>
    match value with
    | .list entries =>
      match elemTy with
      | some t => entries.all (fun e => isinst e t)
      | Option.none => true
    | _ => false
  | .scalar t => isinst value t

/-- `StructAttr.set(value)`: validate the type; on success store the value
and return `True`, otherwise return `False` leaving the attribute as is.
Returned as (result, attribute after the call). -/
def StructAttr.set (a : StructAttr) (value : PyVal) : Bool × StructAttr :=
  if a.validate_type value then (true, { a with value := value })
  else (false, a)

/-- A `Struct`: its `attrs` dict, keyed by attribute name, in insertion
order (Python dicts preserve insertion order). -/
structure Struct where
  attrs : List StructAttr

/-- `Struct.newAttr(name, attType, required, jsonName, omitempty)`:
`bot.exit` if the name is already an attribute, else insert a fresh
`StructAttr` with unset value.  `jsonName or name` resolves a `None` or
empty-string jsonName to the attribute name (Python `or` is by
truthiness). -/
def Struct.newAttr (s : Struct) (name : String) (attType : AttType)
    (required : Bool) (jsonName : Option String) (omitempty : Bool) :
    Except PyErr Unit × Struct :=
  if name ∈ s.attrs.map StructAttr.name then
    (.error (.exit (name ++ " has already been added.")), s)
  else
    (.ok (), ⟨s.attrs ++ [{
      name := name
      value := .none
      attType := attType
      required := required
      jsonName := match jsonName with
        | Option.none => name
        | some j => if j = "" then name else j
      omitempty := omitempty }]⟩)

/-- Set an attribute's value to `None` (unset). -/
def clearValue (a : StructAttr) : StructAttr := { a with value := .none }

/-- `Struct._clear_values()`: set every attribute's value to `None`. -/
def Struct.clear_values (s : Struct) : Struct := ⟨s.attrs.map clearValue⟩

/-- The declared wire names, in declaration order. -/
def Struct.jsonNames (s : Struct) : List String :=
  s.attrs.map StructAttr.jsonName

/-- `Struct.generate_json_lookup()[k]`: the lookup dict maps each
`att.jsonName` to `att`; building it in attrs order means a later
attribute overwrites an earlier one sharing its jsonName, so lookup
returns the last attribute declaring wire name `k`. -/
def Struct.generate_json_lookup (s : Struct) (k : String) : Option StructAttr :=
  s.attrs.reverse.find? (fun a => a.jsonName == k)

/-- The validation-only first pass of `Struct.load`: `bot.exit` on the
first key that no attribute declares as its jsonName. -/
def checkKeys (names : List String) : List (String × PyVal) → Except PyErr Unit
  | [] => .ok ()
  | (k, _) :: rest =>
    if k ∈ names then checkKeys names rest
    else .error (.exit (k ++ " is not a valid json attribute."))

/-- One step of `load`'s second pass: `att = lookup.get(key)` yields the
last attribute whose jsonName is `key` (the lookup dict was built over
`self.attrs`, so `att` aliases the stored attribute), and `att.set(value)`
mutates it in place.  Modelled as updating the last matching entry. -/
def setLast (k : String) (v : PyVal) : List StructAttr → List StructAttr
  | [] => []
  | a :: rest =>
    if k ∈ rest.map StructAttr.jsonName then a :: setLast k v rest
    else if a.jsonName = k then (a.set v).2 :: rest
    else a :: setLast k v rest

/-- `Struct.load(content)`: first pass validates every key of `content`
against the jsonName lookup without touching any value (`bot.exit` on an
unknown key, leaving the struct as it was); only then `_clear_values()`
runs and each key/value pair is applied with `att.set(value)`.  (The
`copy.deepcopy(self.attrs)` in the source is dead: the copy is never used
afterwards.) -/
def Struct.load (s : Struct) (content : List (String × PyVal)) :
    Except PyErr Unit × Struct :=
  match checkKeys s.jsonNames content with
  | .error e => (.error e, s)
  | .ok _ =>
    (.ok (), ⟨content.foldl (fun attrs kv => setLast kv.1 kv.2 attrs)
      s.clear_values.attrs⟩)

/-- `isinstance(att.value, att.attType)` as called by `Struct.validate`:
when `attType` is a list object (e.g. `[str]`), Python `isinstance` raises
`TypeError` ("arg 2 must be a type or tuple of types"). -/
def pyIsinstance (v : PyVal) : AttType → Except PyErr Bool
  | .scalar t => .ok (isinst v t)
  | .listOf _ => .error .typeError

/-- `Struct.validate()` body: in declaration order, a required attribute
with a falsy value reports an error and returns `False`; then the value
must satisfy `isinstance(att.value, att.attType)` or `False` is returned
(raising `TypeError` when `attType` is a list descriptor). -/
def validateAttrs : List StructAttr → Except PyErr Bool
  | [] => .ok true
  | a :: rest =>
    if a.required && !(truthy a.value) then .ok false
    else
      match pyIsinstance a.value a.attType with
      | .error e => .error e
      | .ok b => if b then validateAttrs rest else .ok false

def Struct.validate (s : Struct) : Except PyErr Bool := validateAttrs s.attrs

/-- The "empty" placeholder `lookup.get(att.attType, [])` over the table
`{str: "", int: None, list: [], dict: {}}`.  `bool` is not a key, so the
default `[]` applies; a list descriptor is unhashable and `dict.get`
raises `TypeError` on it. -/
def emptyLookup : AttType → Except PyErr PyVal
  | .scalar .str => .ok (.str "")
  | .scalar .int => .ok .none
  | .scalar .list => .ok (.list [])
  | .scalar .dict => .ok (.dict [])
  | .scalar .bool => .ok (.list [])
  | .listOf _ => .error .typeError

/-- Python `result[k] = v` on a dict: overwrite in place if the key
exists, else append at the end. -/
def dictSet (m : List (String × PyVal)) (k : String) (v : PyVal) :
    List (String × PyVal) :=
  if k ∈ m.map Prod.fst then m.map (fun kv => if kv.1 = k then (k, v) else kv)
  else m ++ [(k, v)]

/-- The result-building loop of `Struct.to_dict`, with accumulator `m`:
skip a falsy value when `omitempty`, emit the type's empty placeholder for
a falsy value otherwise, emit the value itself when truthy. -/
def buildDictAux (m : List (String × PyVal)) :
    List StructAttr → Except PyErr (List (String × PyVal))
  | [] => .ok m
  | a :: rest =>
    if !(truthy a.value) && a.omitempty then buildDictAux m rest
    else if !(truthy a.value) then
      match emptyLookup a.attType with
      | .error e => .error e
      | .ok ph => buildDictAux (dictSet m a.jsonName ph) rest
    else buildDictAux (dictSet m a.jsonName a.value) rest

/-- `Struct.to_dict()`: if `validate()` returns `True`, build and return
the result dict; when `validate()` returns `False` the function falls
through and returns `None`. -/
def Struct.to_dict (s : Struct) : Except PyErr PyVal :=
  match s.validate with
  | .error e => .error e
  | .ok true =>
    match buildDictAux [] s.attrs with
    | .error e => .error e
    | .ok m => .ok (.dict m)
  | .ok false => .ok .none

/-- Escaping of `"` and backslash inside a json string literal. -/
def escapeChars : List Char → String
  | [] => ""
  | c :: cs =>
    (if c = '"' then "\\\""
     else if c = '\\' then "\\\\"
     else String.mk [c]) ++ escapeChars cs

def escapeStr (s : String) : String := escapeChars s.data

/-- `indent` spaces repeated `level` times. -/
def pad (n : Nat) : String := String.mk (List.replicate n ' ')

/-- Modelled from the spec: the external `json.dumps(v, indent=indent)`
of the Python standard library (not part of this repository), which the
spec describes as rendering "pretty-printed, indented structured text".
At nesting depth `level`, each container opens on its own line, members
are indented one more level and separated by `,\n`, and the closing
bracket sits at the container's own level; the key/value separator is
`": "`.  `fuel` bounds the nesting depth, mirroring Python's recursion
limit (`json.dumps` raises `RecursionError` on very deep values). -/
def dumpVal (indent : Nat) : Nat → Nat → PyVal → String
  | _, _, .none => "null"
  | _, _, .bool b => cond b "true" "false"
  | _, _, .int n => toString n
  | _, _, .str s => "\"" ++ escapeStr s ++ "\""
  | 0, _, .list _ => "..."
  | 0, _, .dict _ => "..."
  | _ + 1, _, .list [] => "[]"
  | fuel + 1, level, .list (x :: xs) =>
    "[\n" ++
      String.intercalate ",\n"
        ((x :: xs).map (fun v =>
          pad (indent * (level + 1)) ++ dumpVal indent fuel (level + 1) v)) ++
      "\n" ++ pad (indent * level) ++ "]"
  | _ + 1, _, .dict [] => "\x7b\x7d"
  | fuel + 1, level, .dict (kv :: kvs) =>
    "\x7b\n" ++
      String.intercalate ",\n"
        ((kv :: kvs).map (fun kv =>
          pad (indent * (level + 1)) ++ "\"" ++ escapeStr kv.1 ++ "\": " ++
            dumpVal indent fuel (level + 1) kv.2)) ++
      "\n" ++ pad (indent * level) ++ "\x7d"

/-- `json.dumps(v, indent=indent)`, with the recursion-limit fuel set to
Python's default limit of 1000. -/
def json_dumps (v : PyVal) (indent : Nat) : String := dumpVal indent 1000 0 v

/-- `Struct.to_json()`: take `to_dict()`; only a truthy result is rendered
with `json.dumps(result, indent=4)`, a falsy result (`None`, or the empty
dict) is returned unchanged. -/
def Struct.to_json (s : Struct) : Except PyErr PyVal :=
  match s.to_dict with
  | .error e => .error e
  | .ok result =>
    .ok (if truthy result then .str (json_dumps result 4) else result)

/-- Replace the attribute stored under `name` (attrs is a dict keyed by
name, so the match is unique in a well-formed struct). -/
def updateNamed (name : String) (f : StructAttr → StructAttr) :
    List StructAttr → List StructAttr
  | [] => []
  | a :: rest =>
    if a.name = name then f a :: rest else a :: updateNamed name f rest

/-- `Struct.add(name, value)`: `bot.exit` on an undeclared name; a falsy
value is not type-checked and not stored; otherwise `attr.set(value)`
runs, and a rejected set is a `bot.exit` (the attribute is left unchanged
by the failed `set`, so the struct is unchanged at the raise). -/
def Struct.add (s : Struct) (name : String) (value : PyVal) :
    Except PyErr Unit × Struct :=
  match s.attrs.find? (fun a => a.name == name) with
  | Option.none => (.error (.exit (name ++ " is not a valid attribute.")), s)
  | some attr =>
    if truthy value then
      if (attr.set value).1 then
        (.ok (), ⟨updateNamed name (fun a => (a.set value).2) s.attrs⟩)
      else
        (.error (.exit (name ++ " must be type " ++ attr.attType.pyName ++ ".")), s)
    else (.ok (), s)

/-! Helper functions used to state theorems. -/

/-- First value stored under key `k` in an association list. -/
def lookupKV (m : List (String × PyVal)) (k : String) : Option PyVal :=
  match m.find? (fun kv => kv.1 == k) with
  | Option.none => Option.none
  | some kv => some kv.2

/-- The per-attribute outcome of a successful `load content` on a struct
whose wire names are distinct and `content`'s keys are distinct: the
attribute is cleared, then `set` to the content value at its wire name —
stored if it satisfies `validate_type`, silently left unset otherwise. -/
def loadResult (content : List (String × PyVal)) (a : StructAttr) : StructAttr :=
  match lookupKV content a.jsonName with
  | Option.none => clearValue a
  | some v => if a.validate_type v then { a with value := v } else clearValue a

/-- One pass/fail summary of `validate` for one attribute with a scalar
type: not required-and-falsy, and the value is an instance of the type. -/
def attrOK (a : StructAttr) : Bool :=
  (!a.required || truthy a.value) &&
    (match a.attType with
     | .scalar t => isinst a.value t
     | .listOf _ => false)

/-- The value an attribute ends with after `to_dict` is loaded back into a
fresh struct of the same schema: a truthy value survives; a falsy omitted
value becomes unset; a falsy emitted value becomes the type's placeholder
when the placeholder itself satisfies the type, and unset otherwise. -/
def roundtripValue (a : StructAttr) : PyVal :=
  if truthy a.value then a.value
  else if a.omitempty then .none
  else
    match emptyLookup a.attType with
    | .ok ph => if a.validate_type ph then ph else .none
    | .error _ => .none

/-- What one attribute contributes to `to_dict`: nothing when falsy and
omitted, the type placeholder when falsy and emitted, else its value.
(The `.error` fallback of `emptyLookup` is unreachable for scalar types;
the arbitrary value `[]` stands in for it.) -/
def emittedValue (a : StructAttr) : Option PyVal :=
  if truthy a.value then some a.value
  else if a.omitempty then Option.none
  else
    match emptyLookup a.attType with
    | .ok ph => some ph
    | .error _ => some (.list [])

/-- One attribute's step of the `to_dict` loop, placeholder errors elided. -/
def buildStep (m : List (String × PyVal)) (a : StructAttr) :
    List (String × PyVal) :=
  match emittedValue a with
  | Option.none => m
  | some v => dictSet m a.jsonName v

/-- The `to_dict` result dict, for schemas where no placeholder error can
occur (all scalar types). -/
def buildDictPure (m : List (String × PyVal)) (attrs : List StructAttr) :
    List (String × PyVal) :=
  attrs.foldl buildStep m

/-- The effect of one second-pass `load` step on one attribute, when wire
names are distinct: set it if its wire name matches, leave it alone
otherwise. -/
def applyOne (k : String) (v : PyVal) (a : StructAttr) : StructAttr :=
  if a.jsonName = k then (a.set v).2 else a

/-- The effect of the whole second pass of `load` on one attribute. -/
def applyAll (content : List (String × PyVal)) (a : StructAttr) : StructAttr :=
  content.foldl (fun a kv => applyOne kv.1 kv.2 a) a

/-! Concrete structs used by witnesses and counterexamples. -/

/-- The spec §8.7 example schema: `Name` (str, required, wire name
`"name"`) and `Tags` (`[str]`, not required, omitempty), both unset. -/
def exNameTags : Struct := ⟨[
  ⟨"Name", .none, .scalar .str, true, "name", true⟩,
  ⟨"Tags", .none, .listOf (some .str), false, "Tags", true⟩]⟩

/-- A struct whose first attribute is a populated, valid `[str]` sequence
field and whose second is a required, unset scalar field. -/
def exListThenRequired : Struct := ⟨[
  ⟨"Tags", .list [.str "x"], .listOf (some .str), false, "Tags", true⟩,
  ⟨"Name", .none, .scalar .str, true, "name", true⟩]⟩

/-- One optional, unset, omitempty str attribute. -/
def exOneUnset : Struct := ⟨[⟨"Name", .none, .scalar .str, false, "Name", true⟩]⟩

/-- One optional int attribute holding `0` with `omitempty=False`. -/
def exZeroInt : Struct := ⟨[⟨"Count", .int 0, .scalar .int, false, "Count", false⟩]⟩

/-- One optional str attribute, unset, wire name `"name"`. -/
def exOneStr : Struct := ⟨[⟨"Name", .none, .scalar .str, false, "name", true⟩]⟩

/-- A populated str attribute (required, wire name `"name"`). -/
def exBusybox : Struct := ⟨[⟨"Name", .str "busybox", .scalar .str, true, "name", true⟩]⟩

/-- A `[int]` attribute, as in spec §8.6. -/
def exIntListAttr : StructAttr :=
  ⟨"Numbers", .none, .listOf (some .int), false, "Numbers", true⟩

/-- A two-attribute all-scalar struct: a truthy required field and a falsy
(empty string) field with `omitempty=False`. -/
def exRoundtrip : Struct := ⟨[
  ⟨"Name", .str "busybox", .scalar .str, true, "name", true⟩,
  ⟨"Desc", .str "", .scalar .str, false, "Desc", false⟩]⟩

/-! Basic preservation lemmas. -/

theorem set_snd_jsonName (a : StructAttr) (v : PyVal) :
    (a.set v).2.jsonName = a.jsonName := by
  unfold StructAttr.set
  split <;> rfl

theorem applyOne_jsonName (k : String) (v : PyVal) (a : StructAttr) :
    (applyOne k v a).jsonName = a.jsonName := by
  unfold applyOne
  split
  · exact set_snd_jsonName a v
  · rfl

theorem clearValue_jsonName (a : StructAttr) :
    (clearValue a).jsonName = a.jsonName := rfl

/-- `set` on a cleared attribute, expressed over the original attribute:
a valid value is stored, an invalid one leaves the attribute cleared. -/
theorem set_clearValue (a : StructAttr) (v : PyVal) :
    ((clearValue a).set v).2 =
      if a.validate_type v then { a with value := v } else clearValue a := by
  obtain ⟨n, val, ty, r, j, o⟩ := a
  by_cases h : StructAttr.validate_type ⟨n, val, ty, r, j, o⟩ v <;>
    simp [StructAttr.set, StructAttr.validate_type, clearValue, h] <;>
    simp [StructAttr.validate_type] at h <;> simp [h]

/-! The first, validation-only pass of `load`. -/

theorem checkKeys_ok (names : List String) (content : List (String × PyVal))
    (h : ∀ kv ∈ content, kv.1 ∈ names) : checkKeys names content = .ok () := by
  induction content with
  | nil => rfl
  | cons kv rest ih =>
    obtain ⟨k, v⟩ := kv
    unfold checkKeys
    rw [if_pos (h (k, v) (List.mem_cons_self _ _))]
    exact ih fun kv hkv => h kv (List.mem_cons_of_mem _ hkv)

theorem checkKeys_error (names : List String) (content : List (String × PyVal))
    (h : ∃ kv ∈ content, kv.1 ∉ names) :
    ∃ msg, checkKeys names content = .error (.exit msg) := by
  induction content with
  | nil => simp at h
  | cons kv rest ih =>
    obtain ⟨k, v⟩ := kv
    by_cases hk : k ∈ names
    · obtain ⟨kv2, hmem, hnot⟩ := h
      rcases List.mem_cons.mp hmem with heq | hmem2
      · subst heq
        exact absurd hk hnot
      · obtain ⟨msg, hmsg⟩ := ih ⟨kv2, hmem2, hnot⟩
        refine ⟨msg, ?_⟩
        unfold checkKeys
        rw [if_pos hk]
        exact hmsg
    · refine ⟨k ++ " is not a valid json attribute.", ?_⟩
      unfold checkKeys
      rw [if_neg hk]

/-! The second pass of `load`, pointwise. -/

theorem map_applyOne_of_not_mem (k : String) (v : PyVal) (l : List StructAttr)
    (h : k ∉ l.map StructAttr.jsonName) : l.map (applyOne k v) = l := by
  induction l with
  | nil => rfl
  | cons b rest ih =>
    simp only [List.map_cons, List.mem_cons, not_or] at h
    obtain ⟨h1, h2⟩ := h
    have hne : ¬ b.jsonName = k := fun he => h1 he.symm
    rw [List.map_cons, ih h2]
    simp only [applyOne, if_neg hne]

theorem setLast_eq_map (k : String) (v : PyVal) (attrs : List StructAttr)
    (h : (attrs.map StructAttr.jsonName).Nodup) :
    setLast k v attrs = attrs.map (applyOne k v) := by
  induction attrs with
  | nil => rfl
  | cons a rest ih =>
    rw [List.map_cons, List.nodup_cons] at h
    obtain ⟨hnot, hrest⟩ := h
    unfold setLast
    by_cases hk : k ∈ rest.map StructAttr.jsonName
    · rw [if_pos hk, ih hrest, List.map_cons]
      have hne : ¬ a.jsonName = k := fun he => hnot (he ▸ hk)
      simp only [applyOne, if_neg hne]
    · rw [if_neg hk]
      by_cases hj : a.jsonName = k
      · rw [if_pos hj, List.map_cons, map_applyOne_of_not_mem k v rest hk]
        simp only [applyOne, if_pos hj]
      · rw [if_neg hj, ih hrest, List.map_cons]
        simp only [applyOne, if_neg hj]

theorem map_jsonName_map_applyOne (k : String) (v : PyVal) (l : List StructAttr) :
    (l.map (applyOne k v)).map StructAttr.jsonName = l.map StructAttr.jsonName := by
  induction l with
  | nil => rfl
  | cons b rest ih => simp [applyOne_jsonName, ih]

theorem foldl_setLast_eq_map (content : List (String × PyVal))
    (attrs : List StructAttr) (h : (attrs.map StructAttr.jsonName).Nodup) :
    content.foldl (fun acc kv => setLast kv.1 kv.2 acc) attrs =
      attrs.map (applyAll content) := by
  induction content generalizing attrs with
  | nil =>
    show attrs = attrs.map (applyAll [])
    have : applyAll [] = fun a => a := rfl
    rw [this, List.map_id']
  | cons kv rest ih =>
    rw [List.foldl_cons, setLast_eq_map kv.1 kv.2 attrs h]
    rw [ih _ (by rw [map_jsonName_map_applyOne]; exact h)]
    rw [List.map_map]
    rfl

theorem applyAll_of_not_mem (content : List (String × PyVal)) (a : StructAttr)
    (h : a.jsonName ∉ content.map Prod.fst) : applyAll content a = a := by
  induction content generalizing a with
  | nil => rfl
  | cons kv rest ih =>
    simp only [List.map_cons, List.mem_cons, not_or] at h
    obtain ⟨h1, h2⟩ := h
    show applyAll rest (applyOne kv.1 kv.2 a) = a
    simp only [applyOne, if_neg h1]
    exact ih a h2

theorem lookupKV_cons (p : String × PyVal) (rest : List (String × PyVal))
    (k : String) :
    lookupKV (p :: rest) k = if p.1 = k then some p.2 else lookupKV rest k := by
  by_cases h : p.1 = k <;> simp [lookupKV, List.find?_cons, h]

/-- Pointwise description of the second pass applied to a cleared
attribute, when content keys are distinct. -/
theorem applyAll_clearValue (content : List (String × PyVal)) (a : StructAttr)
    (h : (content.map Prod.fst).Nodup) :
    applyAll content (clearValue a) = loadResult content a := by
  induction content with
  | nil => rfl
  | cons kv rest ih =>
    rw [List.map_cons, List.nodup_cons] at h
    obtain ⟨hnot, hrest⟩ := h
    show applyAll rest (applyOne kv.1 kv.2 (clearValue a)) = loadResult (kv :: rest) a
    by_cases hj : a.jsonName = kv.1
    · by_cases hv : a.validate_type kv.2
      · simp only [applyOne, clearValue_jsonName, if_pos hj, set_clearValue, if_pos hv,
          loadResult, lookupKV_cons, if_pos hj.symm]
        exact applyAll_of_not_mem rest _ (hj.symm ▸ hnot)
      · simp only [applyOne, clearValue_jsonName, if_pos hj, set_clearValue, if_neg hv,
          loadResult, lookupKV_cons, if_pos hj.symm]
        exact applyAll_of_not_mem rest _ (hj.symm ▸ hnot)
    · have hne : ¬ kv.1 = a.jsonName := fun he => hj he.symm
      simp only [applyOne, clearValue_jsonName, if_neg hj]
      rw [ih hrest]
      simp only [loadResult, lookupKV_cons, if_neg hne]

theorem clear_values_jsonNames (s : Struct) :
    s.clear_values.attrs.map StructAttr.jsonName = s.jsonNames := by
  show (s.attrs.map clearValue).map StructAttr.jsonName = s.attrs.map StructAttr.jsonName
  rw [List.map_map]
  rfl

/-- Full characterization of a successful `load`: if the struct's wire
names are pairwise distinct, content keys are distinct, and every content
key is a declared wire name, then `load` succeeds and every attribute ends
as `loadResult` describes: cleared, then set to the content value at its
wire name when that value satisfies `validate_type`, left unset
otherwise. -/
theorem load_ok_eq (s : Struct) (content : List (String × PyVal))
    (h1 : s.jsonNames.Nodup)
    (h2 : (content.map Prod.fst).Nodup)
    (h3 : ∀ kv ∈ content, kv.1 ∈ s.jsonNames) :
    s.load content = (.ok (), ⟨s.attrs.map (loadResult content)⟩) := by
  unfold Struct.load
  rw [checkKeys_ok _ _ h3]
  have hn : (s.clear_values.attrs.map StructAttr.jsonName).Nodup := by
    rw [clear_values_jsonNames]; exact h1
  rw [foldl_setLast_eq_map content _ hn]
  show (Except.ok (), Struct.mk ((s.attrs.map clearValue).map (applyAll content)))
      = (Except.ok (), ⟨s.attrs.map (loadResult content)⟩)
  rw [List.map_map]
  have : applyAll content ∘ clearValue = loadResult content := by
    funext a
    exact applyAll_clearValue content a h2
  rw [this]

/-! `validate`. -/

theorem isinst_none (t : PyType) : isinst .none t = false := by
  cases t <;> rfl

theorem isNone_eq (v : PyVal) : isNone v = true ↔ v = .none := by
  cases v <;> simp [isNone]

theorem attrOK_spec (a : StructAttr) (h : attrOK a = true) :
    (a.required = true → truthy a.value = true) ∧
      ∃ t, a.attType = .scalar t ∧ isinst a.value t = true := by
  simp only [attrOK, Bool.and_eq_true] at h
  obtain ⟨h1, h2⟩ := h
  constructor
  · intro hr
    rw [hr] at h1
    simpa using h1
  · cases hty : a.attType with
    | scalar t =>
      rw [hty] at h2
      exact ⟨t, rfl, h2⟩
    | listOf o =>
      rw [hty] at h2
      simp at h2

theorem attrOK_scalar (a : StructAttr) (h : attrOK a = true) :
    isScalar a.attType = true := by
  obtain ⟨-, t, hty, -⟩ := attrOK_spec a h
  rw [hty]
  rfl

theorem validateAttrs_ok_of (attrs : List StructAttr)
    (h : ∀ a ∈ attrs, attrOK a = true) : validateAttrs attrs = .ok true := by
  induction attrs with
  | nil => rfl
  | cons a rest ih =>
    obtain ⟨h1, t, hty, hin⟩ := attrOK_spec a (h a (List.mem_cons_self _ _))
    unfold validateAttrs
    have hcond : ¬ ((a.required && !(truthy a.value)) = true) := by
      cases hr : a.required
      · simp
      · rw [h1 hr]
        simp
    rw [if_neg hcond, hty]
    simp only [pyIsinstance, hin, if_true]
    exact ih fun b hb => h b (List.mem_cons_of_mem _ hb)

theorem validateAttrs_false_of_head (a : StructAttr) (rest : List StructAttr)
    (hreq : a.required = false) (hval : a.value = .none)
    (hsc : isScalar a.attType = true) :
    validateAttrs (a :: rest) = .ok false := by
  unfold validateAttrs
  rw [if_neg (by rw [hreq]; simp)]
  cases hty : a.attType with
  | scalar t =>
    simp only [pyIsinstance, hval, isinst_none]
    rfl
  | listOf o =>
    rw [hty] at hsc
    simp [isScalar] at hsc

/-! `to_dict`'s result-building loop. -/

theorem emptyLookup_scalar (ty : AttType) (h : isScalar ty = true) :
    ∃ ph, emptyLookup ty = .ok ph := by
  cases ty with
  | scalar t => cases t <;> exact ⟨_, rfl⟩
  | listOf o => simp [isScalar] at h

theorem buildDictAux_eq_pure (attrs : List StructAttr)
    (m : List (String × PyVal)) (h : ∀ a ∈ attrs, isScalar a.attType = true) :
    buildDictAux m attrs = .ok (buildDictPure m attrs) := by
  induction attrs generalizing m with
  | nil => rfl
  | cons a rest ih =>
    obtain ⟨ph, hph⟩ := emptyLookup_scalar _ (h a (List.mem_cons_self _ _))
    have ihr := fun m => ih m (fun b hb => h b (List.mem_cons_of_mem _ hb))
    show buildDictAux m (a :: rest) = .ok (List.foldl buildStep (buildStep m a) rest)
    cases htr : truthy a.value with
    | false =>
      cases hom : a.omitempty with
      | true =>
        simp only [buildDictAux, htr, hom, Bool.not_false, Bool.and_self, if_true,
          buildStep, emittedValue, if_false]
        exact ihr m
      | false =>
        simp only [buildDictAux, htr, hom, Bool.not_false, Bool.and_false, if_false,
          if_true, hph, buildStep, emittedValue]
        exact ihr _
    | true =>
      simp only [buildDictAux, htr, Bool.not_true, Bool.false_and, if_false,
        buildStep, emittedValue, if_true]
      exact ihr _

/-! Lookup in the built dict. -/

theorem lookupKV_not_mem (m : List (String × PyVal)) (k : String)
    (h : k ∉ m.map Prod.fst) : lookupKV m k = Option.none := by
  induction m with
  | nil => rfl
  | cons p rest ih =>
    simp only [List.map_cons, List.mem_cons, not_or] at h
    obtain ⟨h1, h2⟩ := h
    have hne : ¬ p.1 = k := fun he => h1 he.symm
    rw [lookupKV_cons, if_neg hne]
    exact ih h2

theorem lookupKV_dictSet_self (m : List (String × PyVal)) (k : String) (v : PyVal)
    (h : k ∉ m.map Prod.fst) : lookupKV (dictSet m k v) k = some v := by
  unfold dictSet
  rw [if_neg h]
  induction m with
  | nil => rw [List.nil_append, lookupKV_cons, if_pos rfl]
  | cons p rest ih =>
    simp only [List.map_cons, List.mem_cons, not_or] at h
    obtain ⟨h1, h2⟩ := h
    have hne : ¬ p.1 = k := fun he => h1 he.symm
    rw [List.cons_append, lookupKV_cons, if_neg hne]
    exact ih h2

theorem lookupKV_mapOverwrite (m : List (String × PyVal)) (k : String)
    (v : PyVal) (k2 : String) (h : ¬ k2 = k) :
    lookupKV (m.map (fun kv => if kv.1 = k then (k, v) else kv)) k2 =
      lookupKV m k2 := by
  induction m with
  | nil => rfl
  | cons p rest ih =>
    rw [List.map_cons, lookupKV_cons, lookupKV_cons]
    by_cases hp : p.1 = k
    · rw [if_pos hp]
      have h1 : ¬ ((k, v) : String × PyVal).1 = k2 := fun he => h he.symm
      have h2 : ¬ p.1 = k2 := by
        rw [hp]
        exact fun he => h he.symm
      rw [if_neg h1, if_neg h2, ih]
    · rw [if_neg hp, ih]

theorem lookupKV_append_single_ne (m : List (String × PyVal)) (k : String)
    (v : PyVal) (k2 : String) (h : ¬ k2 = k) :
    lookupKV (m ++ [(k, v)]) k2 = lookupKV m k2 := by
  induction m with
  | nil =>
    have hne : ¬ ((k, v) : String × PyVal).1 = k2 := fun he => h he.symm
    rw [List.nil_append, lookupKV_cons, if_neg hne]
  | cons p rest ih =>
    rw [List.cons_append, lookupKV_cons, lookupKV_cons, ih]

theorem lookupKV_dictSet_ne (m : List (String × PyVal)) (k : String) (v : PyVal)
    (k2 : String) (h : ¬ k2 = k) :
    lookupKV (dictSet m k v) k2 = lookupKV m k2 := by
  unfold dictSet
  split
  · exact lookupKV_mapOverwrite m k v k2 h
  · exact lookupKV_append_single_ne m k v k2 h

/-! Keys of the built dict. -/

theorem dictSet_keys (m : List (String × PyVal)) (k : String) (v : PyVal) :
    (dictSet m k v).map Prod.fst =
      if k ∈ m.map Prod.fst then m.map Prod.fst else m.map Prod.fst ++ [k] := by
  unfold dictSet
  by_cases hm : k ∈ m.map Prod.fst
  · rw [if_pos hm, if_pos hm, List.map_map]
    have : (Prod.fst ∘ fun kv : String × PyVal => if kv.1 = k then (k, v) else kv)
        = Prod.fst := by
      funext kv
      by_cases hk : kv.1 = k
      · show (if kv.1 = k then ((k, v) : String × PyVal) else kv).1 = kv.1
        rw [if_pos hk, hk]
      · show (if kv.1 = k then ((k, v) : String × PyVal) else kv).1 = kv.1
        rw [if_neg hk]
    rw [this]
  · rw [if_neg hm, if_neg hm, List.map_append]
    rfl

theorem buildStep_keys (m : List (String × PyVal)) (a : StructAttr) (k : String)
    (h : k ∈ (buildStep m a).map Prod.fst) :
    k ∈ m.map Prod.fst ∨ k = a.jsonName := by
  unfold buildStep at h
  cases he : emittedValue a with
  | none =>
    rw [he] at h
    exact Or.inl h
  | some v =>
    rw [he, dictSet_keys] at h
    by_cases hm : a.jsonName ∈ m.map Prod.fst
    · rw [if_pos hm] at h
      exact Or.inl h
    · rw [if_neg hm] at h
      rcases List.mem_append.mp h with h1 | h2
      · exact Or.inl h1
      · exact Or.inr (List.mem_singleton.mp h2)

theorem buildStep_keys_nodup (m : List (String × PyVal)) (a : StructAttr)
    (h : (m.map Prod.fst).Nodup) : ((buildStep m a).map Prod.fst).Nodup := by
  unfold buildStep
  cases he : emittedValue a with
  | none => exact h
  | some v =>
    rw [dictSet_keys]
    by_cases hm : a.jsonName ∈ m.map Prod.fst
    · rw [if_pos hm]
      exact h
    · rw [if_neg hm]
      simp [List.nodup_append, h, hm]

theorem buildDictPure_keys_nodup (attrs : List StructAttr)
    (m : List (String × PyVal)) (h : (m.map Prod.fst).Nodup) :
    ((buildDictPure m attrs).map Prod.fst).Nodup := by
  induction attrs generalizing m with
  | nil => exact h
  | cons a rest ih => exact ih _ (buildStep_keys_nodup m a h)

theorem buildDictPure_keys_subset (attrs : List StructAttr)
    (m : List (String × PyVal)) (k : String)
    (h : k ∈ (buildDictPure m attrs).map Prod.fst) :
    k ∈ m.map Prod.fst ∨ k ∈ attrs.map StructAttr.jsonName := by
  induction attrs generalizing m with
  | nil => exact Or.inl h
  | cons a rest ih =>
    rcases ih (buildStep m a) h with h1 | h2
    · rcases buildStep_keys m a k h1 with h3 | h4
      · exact Or.inl h3
      · exact Or.inr (by rw [List.map_cons, h4]; exact List.mem_cons_self _ _)
    · exact Or.inr (by rw [List.map_cons]; exact List.mem_cons_of_mem _ h2)

theorem lookupKV_buildDictPure_not_mem (attrs : List StructAttr)
    (m : List (String × PyVal)) (k : String)
    (h : k ∉ attrs.map StructAttr.jsonName) :
    lookupKV (buildDictPure m attrs) k = lookupKV m k := by
  induction attrs generalizing m with
  | nil => rfl
  | cons a rest ih =>
    simp only [List.map_cons, List.mem_cons, not_or] at h
    obtain ⟨h1, h2⟩ := h
    show lookupKV (buildDictPure (buildStep m a) rest) k = lookupKV m k
    rw [ih _ h2]
    unfold buildStep
    cases he : emittedValue a with
    | none => rfl
    | some v => exact lookupKV_dictSet_ne m a.jsonName v k h1

/-- Key lemma for the round trip: in the dict built by `to_dict` over
attributes with pairwise distinct wire names (and an accumulator whose
keys avoid them), each attribute's wire name maps to exactly what that
attribute emitted. -/
theorem lookupKV_buildDictPure (attrs : List StructAttr)
    (m : List (String × PyVal)) (a : StructAttr)
    (h1 : (attrs.map StructAttr.jsonName).Nodup)
    (h2 : ∀ j ∈ attrs.map StructAttr.jsonName, j ∉ m.map Prod.fst)
    (ha : a ∈ attrs) :
    lookupKV (buildDictPure m attrs) a.jsonName = emittedValue a := by
  induction attrs generalizing m with
  | nil => simp at ha
  | cons b rest ih =>
    rw [List.map_cons, List.nodup_cons] at h1
    obtain ⟨hb, hrest⟩ := h1
    rcases List.mem_cons.mp ha with heq | ha2
    · subst heq
      show lookupKV (buildDictPure (buildStep m a) rest) a.jsonName = emittedValue a
      rw [lookupKV_buildDictPure_not_mem rest _ _ hb]
      have hmem : a.jsonName ∉ m.map Prod.fst :=
        h2 a.jsonName (by rw [List.map_cons]; exact List.mem_cons_self _ _)
      unfold buildStep
      cases he : emittedValue a with
      | none => exact lookupKV_not_mem m _ hmem
      | some v => exact lookupKV_dictSet_self m _ v hmem
    · refine ih (buildStep m b) hrest ?_ ha2
      intro j hj hjm
      have hj2 : j ∈ (b :: rest).map StructAttr.jsonName := by
        rw [List.map_cons]
        exact List.mem_cons_of_mem _ hj
      rcases buildStep_keys m b j hjm with h3 | h4
      · exact h2 j hj2 h3
      · exact hb (h4 ▸ hj)

/-! The round trip, pointwise. -/

theorem validate_type_clearValue (a : StructAttr) (v : PyVal) :
    (clearValue a).validate_type v = a.validate_type v := rfl

/-- `loadResult` on a cleared attribute, expressed over the original. -/
theorem loadResult_clear (a : StructAttr) (content : List (String × PyVal)) :
    loadResult content (clearValue a) =
      match lookupKV content a.jsonName with
      | Option.none => clearValue a
      | some v =>
        if a.validate_type v then { a with value := v } else clearValue a := rfl

/-- After a valid scalar attribute is projected by `to_dict` and loaded
back, its value is exactly `roundtripValue`. -/
theorem loadResult_clear_roundtrip (s : Struct) (a : StructAttr)
    (h1 : s.jsonNames.Nodup) (ha : a ∈ s.attrs) (hok : attrOK a = true) :
    loadResult (buildDictPure [] s.attrs) (clearValue a) =
      { a with value := roundtripValue a } := by
  obtain ⟨hreq, t, hty, hin⟩ := attrOK_spec a hok
  have hlk := lookupKV_buildDictPure s.attrs [] a h1 (by simp) ha
  rw [loadResult_clear, hlk]
  cases htr : truthy a.value with
  | true =>
    have hvt : a.validate_type a.value = true := by
      unfold StructAttr.validate_type
      rw [hty]
      exact hin
    simp [emittedValue, roundtripValue, htr, hvt]
  | false =>
    cases hom : a.omitempty with
    | true => simp [emittedValue, roundtripValue, htr, hom, clearValue]
    | false =>
      cases t <;>
        simp [emittedValue, roundtripValue, htr, hom, hty, emptyLookup,
          StructAttr.validate_type, isinst, clearValue]

/-- `to_dict` on an all-scalar struct whose values pass validation. -/
theorem to_dict_ok_of (s : Struct) (h : ∀ a ∈ s.attrs, attrOK a = true) :
    s.to_dict = .ok (.dict (buildDictPure [] s.attrs)) := by
  simp only [Struct.to_dict, Struct.validate, validateAttrs_ok_of s.attrs h,
    buildDictAux_eq_pure s.attrs [] (fun a ha => attrOK_scalar a (h a ha))]

theorem clear_values_jsonNames_eq (s : Struct) :
    s.clear_values.jsonNames = s.jsonNames := clear_values_jsonNames s

/-! The claims. -/

/-- C1 (counterexample to the claim as stated): `exZeroInt` holds the
type-valid value `0` in an optional int attribute with `omitempty=False`.
`to_dict` does not omit the field — it emits it as `null` — yet loading
the projection into a fresh struct of the same schema leaves the
attribute unset (`None`), not `0`: a non-omitted field fails to round
trip, which the claim's only exception (omitted-empty fields) does not
cover. -/
theorem C1_claim_counterexample :
    exZeroInt.attrs.all attrOK = true ∧
    exZeroInt.to_dict = .ok (.dict [("Count", PyVal.none)]) ∧
    exZeroInt.clear_values.load [("Count", PyVal.none)] =
      (.ok (), ⟨[⟨"Count", PyVal.none, .scalar .int, false, "Count", false⟩]⟩) ∧
    PyVal.none ≠ PyVal.int 0 :=
  ⟨rfl, rfl, rfl, fun h => PyVal.noConfusion h⟩

/-- C1 (amended): for a Record whose attributes all have scalar declared
types, pairwise distinct wire names, and values passing validation
(`attrOK`: required implies truthy, value an instance of its scalar
type), `to_dict` then `load` into a freshly constructed Record of the
same schema reproduces every truthy attribute value exactly, while falsy
(empty) values round-trip to unset when omitted (`omitempty`), and
otherwise to the type's empty placeholder when that placeholder itself
satisfies the declared type (text `""`, mapping `{}`, sequence `[]` — all
equal to the original empty value) and to unset when it does not
(numeric, whose placeholder is `null`, and boolean). -/
theorem C1_roundtrip (s : Struct)
    (h1 : s.jsonNames.Nodup)
    (h2 : ∀ a ∈ s.attrs, attrOK a = true) :
    ∃ m, s.to_dict = .ok (.dict m) ∧
      s.clear_values.load m =
        (.ok (), ⟨s.attrs.map (fun a => { a with value := roundtripValue a })⟩) := by
  refine ⟨buildDictPure [] s.attrs, to_dict_ok_of s h2, ?_⟩
  have hkn : ((buildDictPure [] s.attrs).map Prod.fst).Nodup :=
    buildDictPure_keys_nodup s.attrs [] (by simp)
  have hks : ∀ kv ∈ buildDictPure [] s.attrs, kv.1 ∈ s.clear_values.jsonNames := by
    intro kv hkv
    have hmem : kv.1 ∈ (buildDictPure [] s.attrs).map Prod.fst :=
      List.mem_map.mpr ⟨kv, hkv, rfl⟩
    rcases buildDictPure_keys_subset s.attrs [] kv.1 hmem with hc | hc
    · simp at hc
    · rw [clear_values_jsonNames_eq]
      exact hc
  have hlist : s.clear_values.attrs.map (loadResult (buildDictPure [] s.attrs))
      = s.attrs.map (fun a => { a with value := roundtripValue a }) := by
    show (s.attrs.map clearValue).map (loadResult (buildDictPure [] s.attrs)) = _
    rw [List.map_map]
    exact List.map_congr_left fun a ha =>
      loadResult_clear_roundtrip s a h1 ha (h2 a ha)
  rw [load_ok_eq s.clear_values _ (by rw [clear_values_jsonNames_eq]; exact h1)
    hkn hks, hlist]

/-- Witness for C1 at a concrete all-scalar struct. -/
theorem C1_roundtrip_witness :
    ∃ m, exRoundtrip.to_dict = .ok (.dict m) ∧
      exRoundtrip.clear_values.load m =
        (.ok (), ⟨exRoundtrip.attrs.map
          (fun a => { a with value := roundtripValue a })⟩) :=
  C1_roundtrip exRoundtrip (by decide) (by decide)

/-- C2: a `load` whose content has at least one key matching no declared
wire name fails fatally (via the first, validation-only pass) and leaves
the struct — every attribute value included — completely unmodified. -/
theorem C2_unknown_key (s : Struct) (content : List (String × PyVal))
    (h : ∃ kv ∈ content, kv.1 ∉ s.jsonNames) :
    (∃ msg, (s.load content).1 = .error (.exit msg)) ∧
      (s.load content).2 = s := by
  obtain ⟨msg, hmsg⟩ := checkKeys_error s.jsonNames content h
  refine ⟨⟨msg, ?_⟩, ?_⟩
  · unfold Struct.load
    rw [hmsg]
  · unfold Struct.load
    rw [hmsg]

/-- Witness for C2: the spec §8.7 example — `"tags"` is not a declared
wire name (Tags serializes as `"Tags"`), so `load` fails fatally and the
record is untouched. -/
theorem C2_unknown_key_witness :
    (∃ msg, (exNameTags.load
      [("name", PyVal.str "busybox"), ("tags", PyVal.list [PyVal.str "x"])]).1
        = .error (.exit msg)) ∧
    (exNameTags.load
      [("name", PyVal.str "busybox"), ("tags", PyVal.list [PyVal.str "x"])]).2
        = exNameTags :=
  C2_unknown_key exNameTags _ (by decide)

/-- C3 (the code, evaluated at the failing input): `exListThenRequired`
has a required attribute whose value is unset (the second), and its first
attribute is a populated sequence field.  `validate` raises `TypeError`
(Python `isinstance` rejects the list descriptor `[str]` as its second
argument) before ever reaching the required-unset attribute, instead of
reporting an error and returning false; `to_dict` propagates the same
exception instead of returning unset. -/
theorem C3_validate_crash :
    exListThenRequired.attrs.map (fun a => a.required && !(truthy a.value))
      = [false, true] ∧
    exListThenRequired.validate = .error PyErr.typeError ∧
    exListThenRequired.to_dict = .error PyErr.typeError :=
  ⟨rfl, rfl, rfl⟩

/-- C4 (counterexample to the claim as stated): a Record with a single
optional, unset, omitempty str attribute.  `validate` returns false (the
unset sentinel `None` fails `isinstance(None, str)`), so `to_dict`
returns unset (`None`) — not the empty mapping the claim promises. -/
theorem C4_claim_counterexample :
    exOneUnset.attrs.all
      (fun a => !a.required && isNone a.value && a.omitempty) = true ∧
    exOneUnset.to_dict = .ok PyVal.none ∧
    (Except.ok PyVal.none : Except PyErr PyVal) ≠ .ok (PyVal.dict []) :=
  ⟨rfl, rfl, fun h => by injection h with h2; exact PyVal.noConfusion h2⟩

/-- C4 (amended): for a Record with at least one attribute, all of whose
attributes are optional, unset, omitempty and scalar-typed, `to_dict()`
yields unset (because `validate` fails on the unset value's type check)
and `to_json()` yields unset. -/
theorem C4_unset_scalar (s : Struct) (hne : s.attrs ≠ [])
    (h : ∀ a ∈ s.attrs, a.required = false ∧ isNone a.value = true ∧
      a.omitempty = true ∧ isScalar a.attType = true) :
    s.to_dict = .ok PyVal.none ∧ s.to_json = .ok PyVal.none := by
  have hv : s.validate = .ok false := by
    unfold Struct.validate
    cases hs : s.attrs with
    | nil => exact absurd hs hne
    | cons a rest =>
      obtain ⟨hr, hval, hom, hsc⟩ := h a (by rw [hs]; exact List.mem_cons_self a rest)
      exact validateAttrs_false_of_head a rest hr ((isNone_eq a.value).mp hval) hsc
  have hd : s.to_dict = .ok PyVal.none := by
    unfold Struct.to_dict
    rw [hv]
  refine ⟨hd, ?_⟩
  unfold Struct.to_json
  rw [hd]
  rfl

/-- Witness for C4 at the one-attribute struct. -/
theorem C4_unset_scalar_witness :
    exOneUnset.to_dict = .ok PyVal.none ∧ exOneUnset.to_json = .ok PyVal.none :=
  C4_unset_scalar exOneUnset (by simp [exOneUnset]) (by decide)

/-- C5 (the code, evaluated at the failing input): on the spec §8.7
schema, `load {"name": "busybox"}` succeeds and stores the name, but
`to_dict` then raises `TypeError` (from `isinstance(None, [str])` in
`validate` on the optional, unset Tags attribute) instead of returning
`{"name": "busybox"}` with Tags omitted. -/
theorem C5_load_project_crash :
    (exNameTags.load [("name", PyVal.str "busybox")]).1 = .ok () ∧
    (exNameTags.load [("name", PyVal.str "busybox")]).2.attrs.map StructAttr.value
      = [PyVal.str "busybox", PyVal.none] ∧
    (exNameTags.load [("name", PyVal.str "busybox")]).2.to_dict
      = .error PyErr.typeError :=
  ⟨rfl, rfl, rfl⟩

/-- C6: `set` returns exactly the verdict of `validate_type`, and either
stores the candidate value and returns true, or returns false leaving the
attribute unchanged — it never stores a value of a mismatched type. -/
theorem C6_set_typechecks (a : StructAttr) (v : PyVal) :
    (a.set v).1 = a.validate_type v ∧
      (a.set v = (true, { a with value := v }) ∨ a.set v = (false, a)) := by
  cases h : a.validate_type v with
  | true => simp [StructAttr.set, h]
  | false => simp [StructAttr.set, h]

/-- C7: an attribute declared with type `[int]` accepts `[]` and
`[1,2,3]`, rejects `[1, "a"]`, and rejects the non-sequence `5`. -/
theorem C7_sequence_matching :
    exIntListAttr.validate_type (.list []) = true ∧
    exIntListAttr.validate_type (.list [.int 1, .int 2, .int 3]) = true ∧
    exIntListAttr.validate_type (.list [.int 1, .str "a"]) = false ∧
    exIntListAttr.validate_type (.int 5) = false :=
  ⟨rfl, rfl, rfl, rfl⟩

/-- C8 (counterexample to the claim as stated): the wire key `"name"` is
declared, so the pre-scan passes and `load` succeeds — but the value `5`
is applied through the type-validating `set`, which rejects it for the
str attribute: the attribute ends unset (`None`), the mismatched value is
*not* stored, contradicting "the second pass stores every value". -/
theorem C8_claim_counterexample :
    exOneStr.load [("name", PyVal.int 5)] = (.ok (), exOneStr) ∧
    exOneStr.attrs.map StructAttr.value = [PyVal.none] ∧
    PyVal.none ≠ PyVal.int 5 :=
  ⟨rfl, rfl, fun h => PyVal.noConfusion h⟩

/-- C8 (amended): once every key of the content is confirmed to match a
declared wire name, `load` clears all values and applies each key/value
pair through `StructAttr.set` — which does re-run type validation: each
attribute ends holding the content value at its wire name when that value
satisfies `validate_type`, and stays unset otherwise (mismatches are
silently dropped, not stored). -/
theorem C8_load_second_pass (s : Struct) (content : List (String × PyVal))
    (h1 : s.jsonNames.Nodup)
    (h2 : (content.map Prod.fst).Nodup)
    (h3 : ∀ kv ∈ content, kv.1 ∈ s.jsonNames) :
    s.load content = (.ok (), ⟨s.attrs.map (loadResult content)⟩) :=
  load_ok_eq s content h1 h2 h3

/-- Witness for C8 at a concrete struct and content. -/
theorem C8_load_second_pass_witness :
    exOneStr.load [("name", PyVal.int 5)] =
      (.ok (), ⟨exOneStr.attrs.map (loadResult [("name", PyVal.int 5)])⟩) :=
  C8_load_second_pass exOneStr _ (by decide) (by decide) (by decide)

/-- C9 (counterexample to the claim as stated): a Record with no
attributes projects to the empty mapping, which is falsy — and `to_json`
returns that empty mapping itself (`if result:` fails and the dict falls
through), not unset. -/
theorem C9_claim_counterexample :
    Struct.to_dict ⟨[]⟩ = .ok (PyVal.dict []) ∧
    Struct.to_json ⟨[]⟩ = .ok (PyVal.dict []) ∧
    (Except.ok (PyVal.dict []) : Except PyErr PyVal) ≠ .ok PyVal.none :=
  ⟨rfl, rfl, fun h => by injection h with h2; exact PyVal.noConfusion h2⟩

/-- C9 (amended): whenever `to_dict()` yields a result, `to_json()`
renders a truthy (non-empty) mapping as pretty-printed json with 4-space
indentation, and returns any falsy result — the empty mapping or unset —
unchanged (so unset comes back unset, but an empty mapping comes back as
the empty mapping, not unset). -/
theorem C9_to_json (s : Struct) (r : PyVal) (h : s.to_dict = .ok r) :
    s.to_json = .ok (if truthy r then .str (json_dumps r 4) else r) := by
  unfold Struct.to_json
  rw [h]

/-- Witness for C9: a one-field record renders with 4-space indentation. -/
theorem C9_to_json_witness :
    exBusybox.to_json = .ok (.str "\x7b\n    \"name\": \"busybox\"\n\x7d") :=
  C9_to_json exBusybox (PyVal.dict [("name", PyVal.str "busybox")]) rfl

/-- C10: `add` with a falsy value on a declared attribute name performs
no type check and no store: it succeeds and returns the struct exactly as
it was. -/
theorem C10_add_falsy (s : Struct) (name : String) (v : PyVal)
    (h1 : name ∈ s.attrs.map StructAttr.name) (h2 : truthy v = false) :
    s.add name v = (.ok (), s) := by
  unfold Struct.add
  cases hf : s.attrs.find? (fun a => a.name == name) with
  | none =>
    exfalso
    rw [List.find?_eq_none] at hf
    obtain ⟨a, ha, hname⟩ := List.mem_map.mp h1
    exact hf a ha (beq_iff_eq.mpr hname)
  | some attr =>
    rw [h2]
    simp

/-- Witness for C10: adding `None` to a declared attribute is a no-op. -/
theorem C10_add_falsy_witness :
    exBusybox.add "Name" PyVal.none = (.ok (), exBusybox) :=
  C10_add_falsy exBusybox "Name" PyVal.none (by decide) (by decide)

end OCI
